import Mathlib

/-!
Verification of the refresh/cache orchestrator of the Polymarket rewards
monitor (src/markets_dashboard.py and src/v1_rewards_scraper.py) against its
natural-language specification.

The Python code is shallowly embedded: numbers that Python stores as floats
are modelled as rationals, Python dict/JSON optionality is modelled with
Option (a JSON field may be absent, or present and null, or present with a
value, hence Option (Option Rat) in the raw data), Python sets of strings are
modelled as lists used only through membership, and statements that may raise
exceptions are modelled in Except.
-/

/-! ## Data model

`Record` embeds the market_data dict built in MarketsMonitor._fetch_all_markets
(markets_dashboard.py lines 178-194).  `RawMarket` and `EventData` embed the
JSON objects the Gamma API returns, restricted to the keys the code reads.
-/

structure RawMarket where
  id : Option String
  question : String
  slug : String
  outcomes : List String
  prices : List ℚ
  image : Option String
  spread : Option ℚ
  volumeNum : Option (Option ℚ)
  volume24hr : Option (Option ℚ)
  liquidityNum : Option (Option ℚ)
  endDate : Option String
deriving DecidableEq

structure EventData where
  title : String
  slug : String
  image : String
  markets : List RawMarket
deriving DecidableEq

structure Record where
  id : Option String
  question : String
  slug : String
  event_title : String
  event_slug : String
  image : String
  yes_price : Option ℚ
  no_price : Option ℚ
  spread : Option ℚ
  volume : Option ℚ
  volume_24hr : Option ℚ
  liquidity : Option ℚ
  end_date : Option String
  url : String
  has_rewards : Bool
deriving DecidableEq

/-- Python dict.get(key, 0): an absent key yields the default 0, a present key
yields its (possibly null) value.  The outer Option is key presence, the inner
Option is null-ness of the value. -/
def jsonGetD (x : Option (Option ℚ)) (d : ℚ) : Option ℚ :=
  match x with
  | none => some d
  | some v => v

/-- Python `x or 0` on an optional number: None becomes 0; a number is kept
(0 is falsy in Python, but `0 or 0` is 0, so the value is preserved). -/
def orZero (x : Option ℚ) : ℚ :=
  match x with
  | none => 0
  | some v => v

/-- Python `market.get("image") or event_image`: a missing or empty market
image falls back to the event image (markets_dashboard.py line 184). -/
def imageOr (mi : Option String) (ei : String) : String :=
  match mi with
  | none => ei
  | some s => if s = "" then ei else s

/-! ## Combiner: MarketsMonitor._combine_data (lines 295-321)

The Python method reads self._temp_markets, self._temp_rewards_slugs and the
monitor's stored self.rewards_slugs; it keeps the stored slug set when the
fresh one is empty ("if rewards_slugs:" is Python truthiness), flags each
record in place and publishes the list.  `combineData tempMarkets tempSlugs
storedSlugs` returns the published record list and the new stored slug set.
-/

/-- One iteration of the flagging loop (line 308):
market["has_rewards"] = market["slug"] in self.rewards_slugs. -/
def flagRecord (slugs : List String) (r : Record) : Record :=
  { r with has_rewards := slugs.contains r.slug }

def combineData (tempMarkets : List Record) (tempSlugs storedSlugs : List String) :
    List Record × List String :=
  let slugs := if tempSlugs.isEmpty then storedSlugs else tempSlugs
  (tempMarkets.map (flagRecord slugs), slugs)

/-! ## Serving read: RequestHandler.do_GET, /api/markets branch (lines 346-348)

is_refreshing = monitor.is_fetching_markets or monitor.is_fetching_rewards
markets_to_send = monitor.cached_markets if (is_refreshing and
monitor.cached_markets) else monitor.markets -/

def marketsToSend (isFetchingMarkets isFetchingRewards : Bool)
    (cachedMarkets markets : List Record) : List Record :=
  let isRefreshing := isFetchingMarkets || isFetchingRewards
  if isRefreshing && !cachedMarkets.isEmpty then cachedMarkets else markets

/-! ## Refresh endpoints

markets_dashboard.py lines 374-384: the handler reads the in-flight flags,
spawns a refresh thread only when not refreshing, and unconditionally writes
{"status": "started"}.  v1_rewards_scraper.py lines 202-209: the handler
answers {"status": "started"} and spawns a scrape when idle, and
{"status": "busy"} without spawning otherwise.  The Bool in the result records
whether a new worker thread was spawned. -/

def dashboardRefreshResponse (isRefreshing : Bool) : String × Bool :=
  if !isRefreshing then ("started", true) else ("started", false)

def v1RefreshResponse (isScraping : Bool) : String × Bool :=
  if !isScraping then ("started", true) else ("busy", false)

/-! ## Sample records used in concrete counterexamples and witnesses -/

def recA : Record :=
  { id := none, question := "q", slug := "a", event_title := "", event_slug := "",
    image := "", yes_price := some 50, no_price := some 50, spread := none,
    volume := some 100, volume_24hr := some 0, liquidity := some 100,
    end_date := none, url := "", has_rewards := false }

def recB : Record :=
  { id := none, question := "q2", slug := "b", event_title := "", event_slug := "",
    image := "", yes_price := some 40, no_price := some 60, spread := none,
    volume := some 20, volume_24hr := some 0, liquidity := some 30,
    end_date := none, url := "", has_rewards := false }

/-! ## Listing adapter: MarketsMonitor._fetch_all_markets (lines 114-210)

The per-market price extraction (lines 151-164), the placeholder and
volume/liquidity filters (lines 166-174) and the record construction
(lines 176-196) are embedded below.  Python round(x, 2) is embedded as
rounding to an integer number of hundredths (the embedding uses round-half-up
where CPython uses round-half-even; no claim depends on the tie-breaking
direction).  A lookup prices[i] beyond the end of the list raises IndexError
in Python; that is the Except.error case, which the page-level handler
(lines 205-207) turns into an early exit that keeps the records accumulated
so far. -/

def round2 (q : ℚ) : ℚ := ((round (q * 100) : ℤ) : ℚ) / 100

/-- The loop `for i, outcome in enumerate(outcomes)` of lines 159-164:
price_cents = float(prices[i]) * 100 is computed for every outcome, so an
outcomes list longer than the prices list raises IndexError (Except.error). -/
def extractLoop (prices : List ℚ) :
    List String → Nat → Option ℚ × Option ℚ → Except Unit (Option ℚ × Option ℚ)
  | [], _, acc => Except.ok acc
  | o :: rest, i, (y, n) =>
    match prices[i]? with
    | none => Except.error ()
    | some p =>
      let priceCents := p * 100
      if o = "Yes" then extractLoop prices rest (i + 1) (some (round2 priceCents), n)
      else if o = "No" then extractLoop prices rest (i + 1) (y, some (round2 priceCents))
      else extractLoop prices rest (i + 1) (y, n)

/-- Lines 155-164: both prices start as None and the loop only runs when both
lists have length at least 2. -/
def extractPrices (outcomes : List String) (prices : List ℚ) :
    Except Unit (Option ℚ × Option ℚ) :=
  if 2 ≤ prices.length ∧ 2 ≤ outcomes.length then
    extractLoop prices outcomes 0 (none, none)
  else
    Except.ok (none, none)

/-- Lines 166-196 for one market whose price extraction did not raise: the
placeholder filter (lines 166-168, both prices must be present), the
volume/liquidity filter (lines 170-174) and the construction of the
market_data dict (lines 176-194).  none is a skipped market. -/
def keepMarket (eventTitle eventSlug eventImage : String) (m : RawMarket) :
    Option ℚ × Option ℚ → Option Record
  | (some yp, some np) =>
    if orZero (jsonGetD m.volumeNum 0) < 10 ∨ orZero (jsonGetD m.liquidityNum 0) < 10 then
      none
    else
      some
        { id := m.id, question := m.question, slug := m.slug,
          event_title := eventTitle, event_slug := eventSlug,
          image := imageOr m.image eventImage,
          yes_price := some yp, no_price := some np,
          spread := m.spread,
          volume := jsonGetD m.volumeNum 0,
          volume_24hr := jsonGetD m.volume24hr 0,
          liquidity := jsonGetD m.liquidityNum 0,
          end_date := m.endDate,
          url := "https://polymarket.com/event/" ++ eventSlug ++ "/" ++ m.slug,
          has_rewards := false }
  | _ => none

/-- Lines 151-196 for one market of one event: Except.error is a raised
exception, Except.ok none is a skipped (filtered) market, Except.ok (some r)
is a kept record. -/
def processMarket (eventTitle eventSlug eventImage : String) (m : RawMarket) :
    Except Unit (Option Record) :=
  (extractPrices m.outcomes m.prices).map (keepMarket eventTitle eventSlug eventImage m)

/-- The inner `for market in event.get("markets", [])` loop.  An exception
(Except.error) carries the records appended before it was raised, since
all_markets is mutated in place. -/
def processMarkets (eventTitle eventSlug eventImage : String) :
    List Record → List RawMarket → Except (List Record) (List Record)
  | acc, [] => Except.ok acc
  | acc, m :: rest =>
    match processMarket eventTitle eventSlug eventImage m with
    | Except.error _ => Except.error acc
    | Except.ok none => processMarkets eventTitle eventSlug eventImage acc rest
    | Except.ok (some r) => processMarkets eventTitle eventSlug eventImage (acc ++ [r]) rest

/-- The outer `for event in events` loop of lines 145-196. -/
def processEvents : List Record → List EventData → Except (List Record) (List Record)
  | acc, [] => Except.ok acc
  | acc, e :: rest =>
    match processMarkets e.title e.slug e.image acc e.markets with
    | Except.error acc1 => Except.error acc1
    | Except.ok acc1 => processEvents acc1 rest

/-- The `while True` pagination loop of lines 122-207.  Each list entry is the
outcome of one urlopen-and-parse round trip: Except.error is a raised
exception (network failure, malformed JSON, ...), caught at lines 205-207 with
a break; Except.ok is the decoded events page.  An empty page (line 142) and
a short page (line 200) also break.  The loop keeps everything accumulated
before an exception. -/
def fetchLoop (limit : Nat) : List Record → List (Except Unit (List EventData)) → List Record
  | acc, [] => acc
  | acc, page :: rest =>
    match page with
    | Except.error _ => acc
    | Except.ok events =>
      if events.isEmpty then acc
      else
        match processEvents acc events with
        | Except.error acc1 => acc1
        | Except.ok acc1 =>
          if events.length < limit then acc1
          else fetchLoop limit acc1 rest

def fetchAllMarkets (pages : List (Except Unit (List EventData))) : List Record :=
  fetchLoop 100 [] pages

/-! ## Scrape adapter: MarketsMonitor._fetch_rewards_slugs (lines 212-293)

Each list entry is the slug list one rewards page yielded in the browser
(deduplicated in page order by the injected JavaScript); Except.error is a
per-page exception, caught at lines 283-285 with a break.  The loop stops on
the loop-back heuristic (a page whose slug set equals the non-empty first
page's, lines 265-269) or on a short page of fewer than 80 slugs
(lines 271-275), and accumulates into a set. -/

/-- Adding a page of slugs to the accumulated set (rewards_slugs.add(s)). -/
def addSlugs (acc slugs : List String) : List String :=
  slugs.foldl (fun a s => if a.contains s then a else a ++ [s]) acc

/-- Python set(slugs) == first_page_slugs. -/
def slugSetEq (a b : List String) : Bool :=
  a.all (fun s => b.contains s) && b.all (fun s => a.contains s)

def scrapeLoop (firstPage : Option (List String)) (acc : List String)
    (pageNum maxPages : Nat) : List (Except Unit (List String)) → List String
  | [] => acc
  | page :: rest =>
    if maxPages < pageNum then acc
    else
      match page with
      | Except.error _ => acc
      | Except.ok slugs =>
        let first1 := if pageNum = 1 then some slugs else firstPage
        let loopBack : Bool := pageNum != 1 &&
          (match firstPage with
           | some f => !f.isEmpty && slugSetEq slugs f
           | none => false)
        if loopBack then acc
        else if slugs.length < 80 then addSlugs acc slugs
        else scrapeLoop first1 (addSlugs acc slugs) (pageNum + 1) maxPages rest

def scrapeSlugs (pages : List (Except Unit (List String))) : List String :=
  scrapeLoop none [] 1 50 pages

/-! ## One full refresh cycle, sequentially

start_full_refresh spawns the two adapters and a joiner thread that waits for
both and calls _combine_data (lines 80-96).  `runCycle` is the sequential
denotation of one cycle body: both adapters run to completion on their
environments, then _combine_data publishes the combined list and sets
fetch_progress to {len(markets), len(self.rewards_slugs), "ready"}
(line 315). -/

structure CycleResult where
  markets : List Record
  rewardsSlugs : List String
  progressMarkets : Nat
  progressRewards : Nat
  progressStatus : String
deriving DecidableEq

def runCycle (storedSlugs : List String) (pages : List (Except Unit (List EventData)))
    (scrapePages : List (Except Unit (List String))) : CycleResult :=
  let tempMarkets := fetchAllMarkets pages
  let tempSlugs := scrapeSlugs scrapePages
  let combined := combineData tempMarkets tempSlugs storedSlugs
  { markets := combined.1, rewardsSlugs := combined.2,
    progressMarkets := combined.1.length, progressRewards := combined.2.length,
    progressStatus := "ready" }

/-! ## Interleaving model of start_full_refresh (lines 67-112)

start_full_refresh only READS is_fetching_markets / is_fetching_rewards
(line 69); the flags are WRITTEN inside the spawned worker threads
(_fetch_markets_thread line 100 and _fetch_rewards_thread line 108), after
the spawning call has already returned.  The model below makes each of those
program points one atomic step of a task and lets a scheduler interleave
them.  `ThreadOp.check` is the flag test of line 69; `ThreadOp.body` is the
rest of the call body (cache the current list, re-arm the timer, reset
fetch_progress and spawn the two adapter threads, lines 73-96) grouped into
one step, which only restricts the scheduler further and so is sound for
exhibiting a reachable interleaving; `mstart` / `rstart` set the respective
flag at the top of the worker thread, and `mfinish` / `rfinish` clear it in
the finally block. -/

inductive ThreadOp
  | check
  | body
  | mstart
  | mfinish
  | rstart
  | rfinish
deriving DecidableEq

structure RefreshSys where
  fm : Bool
  fr : Bool
  tasks : List ThreadOp
  adapterSpawns : Nat
  progressResets : Nat
  liveAdapters : Nat
  passLog : List Bool
deriving DecidableEq

/-- Run one atomic step of the task at index i; the scheduler supplies i.
On a passed check the model logs whether a cycle was already in flight
(spawned adapter threads not yet finished, or a flag set) at that moment. -/
def stepTask (s : RefreshSys) (i : Nat) : RefreshSys :=
  match s.tasks[i]? with
  | none => s
  | some t =>
    let rest := s.tasks.eraseIdx i
    match t with
    | ThreadOp.check =>
      if s.fm || s.fr then { s with tasks := rest }
      else
        { s with tasks := rest ++ [ThreadOp.body],
                 passLog := s.passLog ++ [s.fm || s.fr || decide (0 < s.liveAdapters)] }
    | ThreadOp.body =>
      { s with tasks := rest ++ [ThreadOp.mstart, ThreadOp.rstart],
               adapterSpawns := s.adapterSpawns + 2,
               progressResets := s.progressResets + 1,
               liveAdapters := s.liveAdapters + 2 }
    | ThreadOp.mstart => { s with fm := true, tasks := rest ++ [ThreadOp.mfinish] }
    | ThreadOp.mfinish => { s with fm := false, tasks := rest, liveAdapters := s.liveAdapters - 1 }
    | ThreadOp.rstart => { s with fr := true, tasks := rest ++ [ThreadOp.rfinish] }
    | ThreadOp.rfinish => { s with fr := false, tasks := rest, liveAdapters := s.liveAdapters - 1 }

def runSys (s : RefreshSys) : List Nat → RefreshSys
  | [] => s
  | i :: sched => runSys (stepTask s i) sched

/-- Two pending calls to start_full_refresh (for instance the timer callback
and a /api/refresh handler thread), nothing else running. -/
def twoCallsInit : RefreshSys :=
  { fm := false, fr := false, tasks := [ThreadOp.check, ThreadOp.check],
    adapterSpawns := 0, progressResets := 0, liveAdapters := 0, passLog := [] }

/-- A state in which a worker flag is already set and one fresh call is
pending. -/
def busySys : RefreshSys :=
  { fm := true, fr := false, tasks := [ThreadOp.check],
    adapterSpawns := 2, progressResets := 1, liveAdapters := 2, passLog := [false] }

/-! ## Event trace of one refresh cycle (for the timer re-arm ordering)

The atomic actions of one started cycle, in program order.  start_full_refresh
(lines 67-96): cache the current list as cached_markets (line 75), cancel and
re-arm the auto-refresh timer (start_auto_refresh, lines 48-54, called at
line 78), reset fetch_progress to fetching (line 81), spawn the two adapter
threads (lines 86-87); then the joiner thread runs _combine_data
(lines 295-321): compute the flags (line 308), publish self.markets
(line 313), set fetch_progress to ready (line 315). -/

inductive CycleEv
  | cachePrev
  | cancelTimer
  | armTimer
  | setFetching
  | spawnMarkets
  | spawnRewards
  | combine
  | swapMarkets
  | setReady
deriving DecidableEq

/-- MarketsMonitor.start_auto_refresh (lines 48-54). -/
def startAutoRefreshEvents : List CycleEv := [CycleEv.cancelTimer, CycleEv.armTimer]

/-- MarketsMonitor.start_full_refresh when not in flight and markets is
non-empty (lines 73-96). -/
def startFullRefreshEvents : List CycleEv :=
  [CycleEv.cachePrev] ++ startAutoRefreshEvents ++
    [CycleEv.setFetching, CycleEv.spawnMarkets, CycleEv.spawnRewards]

/-- MarketsMonitor._combine_data (lines 295-321). -/
def combineDataEvents : List CycleEv := [CycleEv.combine, CycleEv.swapMarkets, CycleEv.setReady]

def fullCycleEvents : List CycleEv := startFullRefreshEvents ++ combineDataEvents

/-- The event trace of n consecutive completed cycles. -/
def repeatTrace : Nat → List CycleEv
  | 0 => []
  | n + 1 => fullCycleEvents ++ repeatTrace n

def countEv (e : CycleEv) : List CycleEv → Nat
  | [] => 0
  | x :: xs => (if x = e then 1 else 0) + countEv e xs

def posOf (e : CycleEv) : List CycleEv → Nat
  | [] => 0
  | x :: xs => if x = e then 0 else posOf e xs + 1

/-! ## Auxiliary definitions used by the statements and proofs -/

/-- The value a Python variable holds after the loop, whether the loop ended
normally (ok) or an exception was caught (error): both carry the accumulated
list. -/
def exVal : Except (List Record) (List Record) → List Record
  | Except.ok acc => acc
  | Except.error acc => acc

/-- All raw markets of a list of event pages. -/
def marketsOfEvents : List EventData → List RawMarket
  | [] => []
  | e :: rest => e.markets ++ marketsOfEvents rest

/-- All raw markets mentioned in an environment of page results. -/
def marketsOfPages : List (Except Unit (List EventData)) → List RawMarket
  | [] => []
  | Except.error _ :: rest => marketsOfPages rest
  | Except.ok evs :: rest => marketsOfEvents evs ++ marketsOfPages rest

/-- Every price the extraction can produce is some input price times 100,
rounded to two decimals. -/
def PriceOk (prices : List ℚ) (o : Option ℚ) : Prop :=
  ∀ q, o = some q → ∃ p ∈ prices, q = round2 (p * 100)

/-! ## Concrete inputs for counterexamples and witnesses -/

/-- A market as the Gamma API could return it, with an outcome price of 1.5:
the code multiplies it by 100 and performs no range check. -/
def mBad : RawMarket :=
  { id := none, question := "Q", slug := "m1", outcomes := ["Yes", "No"],
    prices := [3/2, 1/2], image := none, spread := none,
    volumeNum := some (some 100), volume24hr := none,
    liquidityNum := some (some 100), endDate := none }

def evBad : EventData := { title := "E", slug := "e", image := "", markets := [mBad] }

/-- A well-formed market: prices 0.5/0.5, volume 100, liquidity 50. -/
def mGood : RawMarket :=
  { id := none, question := "Q", slug := "g", outcomes := ["Yes", "No"],
    prices := [1/2, 1/2], image := none, spread := none,
    volumeNum := some (some 100), volume24hr := none,
    liquidityNum := some (some 50), endDate := none }

def evGood : EventData := { title := "E", slug := "e", image := "", markets := [mGood] }

/-- The record _fetch_all_markets builds from mGood. -/
def rGood : Record :=
  { id := none, question := "Q", slug := "g", event_title := "E", event_slug := "e",
    image := "", yes_price := some 50, no_price := some 50, spread := none,
    volume := some 100, volume_24hr := some 0, liquidity := some 50,
    end_date := none, url := "https://polymarket.com/event/e/g", has_rewards := false }

/-- The record the cycle builds from mBad: the out-of-range upstream price 1.5
becomes yes_price 150 with no range check anywhere. -/
def rBadOut : Record :=
  { id := none, question := "Q", slug := "m1", event_title := "E", event_slug := "e",
    image := "", yes_price := some 150, no_price := some 50, spread := none,
    volume := some 100, volume_24hr := some 0, liquidity := some 100,
    end_date := none, url := "https://polymarket.com/event/e/m1", has_rewards := false }

/-- rGood after a cycle whose scrape found its slug. -/
def rGoodStar : Record := { rGood with has_rewards := true }

/-- A market with valid prices but volume 5, below the $10 threshold. -/
def mLowVol : RawMarket :=
  { id := none, question := "Q", slug := "lv", outcomes := ["Yes", "No"],
    prices := [1/2, 1/2], image := none, spread := none,
    volumeNum := some (some 5), volume24hr := none,
    liquidityNum := some (some 50), endDate := none }

/-! ## Helper lemmas -/

theorem countEv_append (e : CycleEv) (l1 l2 : List CycleEv) :
    countEv e (l1 ++ l2) = countEv e l1 + countEv e l2 := by
  induction l1 with
  | nil => simp [countEv]
  | cons x xs ih => simp [countEv, ih, Nat.add_assoc]

/-! ## Claim C1 -/

/-- Claim C1 counterexample: the claim asserts that a call to
start_full_refresh made while a cycle is in flight is a silent no-op enforced
by an atomic check-and-set.  In the interleaving model of the code, two
pending calls scheduled as [0, 1, 0, 2] give: the first call passes its check
and runs its body (spawning two adapter threads); the second call then passes
its check while those two adapters are spawned and unfinished (its passLog
entry is true, the cycle is in flight) because neither adapter thread has yet
executed its flag-setting first line; the second call's body then spawns two
more adapter tasks (4 in total) and resets Progress State a second time.  So a
trigger received in flight is not a no-op: the check and the flag set are not
one atomic step. -/
theorem C1_counterexample :
    (runSys twoCallsInit [0, 1, 0, 2]).passLog = [false, true] ∧
    (runSys twoCallsInit [0, 1, 0, 2]).adapterSpawns = 4 ∧
    (runSys twoCallsInit [0, 1, 0, 2]).progressResets = 2 := by decide

/-- Claim C1, amended: a call to start_full_refresh that observes
is_fetching_markets or is_fetching_rewards already set is a silent no-op —
the call disappears leaving the flags, Progress State, and the set of spawned
adapter tasks unchanged.  The check and the flag set are however not a single
atomic step (the flags are set inside the spawned adapter threads), so two
calls that both check before either spawned thread sets its flag each spawn
adapter tasks, and two cycles can be in flight simultaneously. -/
theorem C1_amended_thm (s : RefreshSys) (i : Nat)
    (ht : s.tasks[i]? = some ThreadOp.check) (hb : (s.fm || s.fr) = true) :
    stepTask s i = { s with tasks := s.tasks.eraseIdx i } := by
  unfold stepTask
  rw [ht]
  simp [hb]

/-- Claim C1 witness: in the concrete busy state, the pending check step only
removes itself. -/
theorem C1_witness :
    stepTask busySys 0 = { busySys with tasks := List.eraseIdx busySys.tasks 0 } :=
  C1_amended_thm busySys 0 rfl rfl

/-! ## Claim C2 -/

/-- Claim C2: the /api/markets read returns the previous snapshot
(cached_markets) whenever a refresh is in flight and the previous snapshot is
non-empty — hence at least as many records as that previous snapshot — and
the current snapshot (markets) otherwise. -/
theorem C2_thm (fm fr : Bool) (cached current : List Record) :
    ((fm || fr) = true → cached ≠ [] →
      marketsToSend fm fr cached current = cached ∧
      cached.length ≤ (marketsToSend fm fr cached current).length) ∧
    ((fm || fr) = false ∨ cached = [] →
      marketsToSend fm fr cached current = current) := by
  constructor
  · intro h hc
    have hk : cached.isEmpty = false := List.isEmpty_eq_false.mpr hc
    constructor <;> simp [marketsToSend, h, hk]
  · intro h
    rcases h with h | h
    · simp [marketsToSend, h]
    · subst h
      simp [marketsToSend]

/-- Claim C2 witness: both branches at concrete states. -/
theorem C2_witness :
    (marketsToSend true false [recA] [recA, recB] = [recA] ∧
      [recA].length ≤ (marketsToSend true false [recA] [recA, recB]).length) ∧
    marketsToSend false false [recA] [recA, recB] = [recA, recB] :=
  ⟨(C2_thm true false [recA] [recA, recB]).1 rfl (by decide),
   (C2_thm false false [recA] [recA, recB]).2 (Or.inl rfl)⟩

/-! ## Claim C3 -/

/-- Claim C3 counterexample: the combination step is not a pure function of
the record list and the key set.  With equal records [recA] and equal (empty)
keys, two runs that differ only in the monitor's stored rewards_slugs — a
hidden read of prior state — produce different flagged outputs. -/
theorem C3_counterexample :
    combineData [recA] [] [] ≠ combineData [recA] [] ["a"] := by decide

/-- Claim C3, amended: the combination step is a deterministic function of
three inputs — the record list, the key set, and the monitor's stored
rewards_slugs (prior state, read when the key set is empty).  Given equal
records and equal non-empty keys its output is moreover independent of the
stored set. -/
theorem C3_amended_thm (records : List Record) (tempSlugs stored stored1 : List String) :
    combineData records tempSlugs stored = combineData records tempSlugs stored ∧
    (tempSlugs ≠ [] →
      combineData records tempSlugs stored = combineData records tempSlugs stored1) := by
  refine ⟨rfl, fun h => ?_⟩
  have hk : tempSlugs.isEmpty = false := List.isEmpty_eq_false.mpr h
  simp [combineData, hk]

/-- Claim C3 witness: with a non-empty key set the stored set is irrelevant. -/
theorem C3_witness :
    combineData [recA] ["a"] [] = combineData [recA] ["a"] ["b"] :=
  (C3_amended_thm [recA] ["a"] [] ["b"]).2 (by decide)

/-! ## Claim C4 -/

/-- Claim C4: last-known-good retention.  After a cycle whose scrape returned
the non-empty key set keys1, a following cycle whose scrape returns the empty
set flags its records against keys1, not against the empty set, and keys1
stays the stored set. -/
theorem C4_thm (recs1 recs2 : List Record) (keys1 stored0 : List String)
    (h : keys1 ≠ []) :
    (combineData recs2 [] (combineData recs1 keys1 stored0).2).1 =
      recs2.map (flagRecord keys1) ∧
    (combineData recs2 [] (combineData recs1 keys1 stored0).2).2 = keys1 := by
  have hk : keys1.isEmpty = false := List.isEmpty_eq_false.mpr h
  constructor <;> simp [combineData, hk]

/-- Claim C4 witness: a successful cycle learning ["a"] followed by a cycle
whose scrape fails (returns the empty set) still flags against ["a"]. -/
theorem C4_witness :
    (combineData [recA, recB] [] (combineData [recA] ["a"] []).2).1 =
      [recA, recB].map (flagRecord ["a"]) ∧
    (combineData [recA, recB] [] (combineData [recA] ["a"] []).2).2 = ["a"] :=
  C4_thm [recA] [recA, recB] ["a"] [] (by decide)

/-! ## Claim C6 -/

/-- Claim C6 counterexample: in markets_dashboard.py the /api/refresh handler
answers {"status": "started"} even while a refresh is in flight (and spawns
nothing), so the second of two requests within one cycle receives "started",
not "busy" as the claim states. -/
theorem C6_counterexample :
    dashboardRefreshResponse true = ("started", false) ∧
    ("started" : String) ≠ "busy" := by decide

/-- Claim C6, amended: both refresh handlers respond immediately.  In
v1_rewards_scraper.py the first request of a cycle receives "started" and
spawns the scrape and a request during scraping receives "busy" and spawns
nothing.  In markets_dashboard.py every request receives "started", but a
request during a cycle spawns no new refresh, so the combiner still runs
exactly once per started cycle. -/
theorem C6_amended_thm :
    (∀ b, (dashboardRefreshResponse b).1 = "started") ∧
    (∀ b, (dashboardRefreshResponse b).2 = !b) ∧
    v1RefreshResponse false = ("started", true) ∧
    v1RefreshResponse true = ("busy", false) ∧
    countEv CycleEv.combine fullCycleEvents = 1 := by
  refine ⟨fun b => ?_, fun b => ?_, rfl, rfl, by decide⟩ <;> cases b <;> rfl

/-! ## Claim C7 -/

/-- Claim C7 counterexample: within the event trace of one completed refresh
cycle the single timer re-arm happens BEFORE the cache swap and before the
Progress State "ready" transition (it is step 2 of start_full_refresh,
line 78), not as the final step after them as the claim states. -/
theorem C7_counterexample :
    countEv CycleEv.armTimer fullCycleEvents = 1 ∧
    posOf CycleEv.armTimer fullCycleEvents < posOf CycleEv.swapMarkets fullCycleEvents ∧
    posOf CycleEv.armTimer fullCycleEvents < posOf CycleEv.setReady fullCycleEvents := by
  decide

/-- Claim C7, amended: the auto-refresh timer is re-armed exactly once per
started cycle — after N completed cycles with no manual triggers exactly N
re-arms have occurred — but the re-arm is an early step of
start_full_refresh, before the adapters are even spawned, not the final step
after the cache swap and the ready transition. -/
theorem C7_amended_thm (n : Nat) :
    countEv CycleEv.armTimer (repeatTrace n) = n ∧
    posOf CycleEv.armTimer fullCycleEvents < posOf CycleEv.spawnMarkets fullCycleEvents ∧
    posOf CycleEv.armTimer fullCycleEvents < posOf CycleEv.spawnRewards fullCycleEvents := by
  refine ⟨?_, by decide, by decide⟩
  induction n with
  | zero => rfl
  | succ k ih =>
    have h1 : countEv CycleEv.armTimer fullCycleEvents = 1 := by decide
    rw [repeatTrace, countEv_append, ih, h1]
    omega

/-! ## Claim C9 -/

/-- Claim C9 counterexample: the flagging step does not always use the
supplied key set.  With the empty key set and stored slugs ["a"], recA is
flagged in-program although its slug is not a member of the supplied (empty)
key set. -/
theorem C9_counterexample :
    (combineData [recA] [] ["a"]).1 = [{ recA with has_rewards := true }] ∧
    recA.slug ∉ ([] : List String) := by decide

/-- Claim C9, amended: for every record list and every NON-EMPTY key set the
combination output is the input list in the same order, each record's
has_rewards flag set to the membership test of its slug in the key set and
every other field unchanged.  (When the key set is empty the stored
last-known-good set is used instead — see C4.) -/
theorem C9_amended_thm (records : List Record) (keys stored : List String)
    (h : keys ≠ []) :
    (combineData records keys stored).1.length = records.length ∧
    ∀ (i : Nat) (r : Record), records[i]? = some r →
      (combineData records keys stored).1[i]? =
        some { r with has_rewards := keys.contains r.slug } := by
  have hk : keys.isEmpty = false := List.isEmpty_eq_false.mpr h
  constructor
  · simp [combineData]
  · intro i r hr
    simp [combineData, hk, List.getElem?_map, hr, flagRecord]

/-- Claim C9 witness: order, flag and fields at a concrete input. -/
theorem C9_witness :
    (combineData [recA, recB] ["a"] []).1.length = [recA, recB].length ∧
    ∀ (i : Nat) (r : Record), [recA, recB][i]? = some r →
      (combineData [recA, recB] ["a"] []).1[i]? =
        some { r with has_rewards := List.contains ["a"] r.slug } :=
  C9_amended_thm [recA, recB] ["a"] [] (by decide)

/-! ## Helper lemmas for the listing-adapter invariants -/

theorem round2_bounds (p : ℚ) (h0 : 0 ≤ p) (h1 : p ≤ 1) :
    0 ≤ round2 (p * 100) ∧ round2 (p * 100) ≤ 100 := by
  have hx0 : (0 : ℚ) ≤ p * 100 * 100 := by nlinarith
  have hx1 : p * 100 * 100 ≤ 10000 := by nlinarith
  have hk0 : (0 : ℤ) ≤ round (p * 100 * 100) := by
    rw [round_eq]
    exact Int.le_floor.mpr (by push_cast; linarith)
  have hk1 : round (p * 100 * 100) ≤ 10000 := by
    rw [round_eq]
    have hlt : ⌊p * 100 * 100 + 1 / 2⌋ < 10001 := Int.floor_lt.mpr (by push_cast; linarith)
    omega
  unfold round2
  constructor
  · apply div_nonneg _ (by norm_num)
    exact_mod_cast hk0
  · rw [div_le_iff₀ (by norm_num : (0 : ℚ) < 100)]
    calc ((round (p * 100 * 100) : ℤ) : ℚ) ≤ 10000 := by exact_mod_cast hk1
      _ = 100 * 100 := by norm_num

theorem extractLoop_priceOk (prices : List ℚ) :
    ∀ (outcomes : List String) (i : Nat) (y n : Option ℚ) (out : Option ℚ × Option ℚ),
      extractLoop prices outcomes i (y, n) = Except.ok out →
      PriceOk prices y → PriceOk prices n → PriceOk prices out.1 ∧ PriceOk prices out.2 := by
  intro outcomes
  induction outcomes with
  | nil =>
    intro i y n out h hy hn
    simp only [extractLoop, Except.ok.injEq] at h
    rw [← h]
    exact ⟨hy, hn⟩
  | cons o rest ih =>
    intro i y n out h hy hn
    simp only [extractLoop] at h
    cases hpi : prices[i]? with
    | none =>
      simp only [hpi] at h
      exact Except.noConfusion h
    | some p =>
      have hp : p ∈ prices := List.getElem?_mem hpi
      simp only [hpi] at h
      by_cases ho : o = "Yes"
      · rw [if_pos ho] at h
        refine ih (i + 1) _ n out h ?_ hn
        intro q hq
        rw [Option.some_inj] at hq
        exact ⟨p, hp, hq.symm⟩
      · rw [if_neg ho] at h
        by_cases ho2 : o = "No"
        · rw [if_pos ho2] at h
          refine ih (i + 1) y _ out h hy ?_
          intro q hq
          rw [Option.some_inj] at hq
          exact ⟨p, hp, hq.symm⟩
        · rw [if_neg ho2] at h
          exact ih (i + 1) y n out h hy hn

theorem extractPrices_priceOk (outcomes : List String) (prices : List ℚ)
    (out : Option ℚ × Option ℚ) (h : extractPrices outcomes prices = Except.ok out) :
    PriceOk prices out.1 ∧ PriceOk prices out.2 := by
  unfold extractPrices at h
  split at h
  · exact extractLoop_priceOk prices outcomes 0 none none out h
      (fun q hq => nomatch hq) (fun q hq => nomatch hq)
  · rw [Except.ok.injEq] at h
    rw [← h]
    exact ⟨(fun q hq => nomatch hq), (fun q hq => nomatch hq)⟩

theorem keepMarket_eq_some (et es ei : String) (m : RawMarket)
    (yn : Option ℚ × Option ℚ) (r : Record) (h : keepMarket et es ei m yn = some r) :
    ∃ yp np, yn = (some yp, some np) ∧
      ¬(orZero (jsonGetD m.volumeNum 0) < 10 ∨ orZero (jsonGetD m.liquidityNum 0) < 10) ∧
      r = { id := m.id, question := m.question, slug := m.slug,
            event_title := et, event_slug := es,
            image := imageOr m.image ei,
            yes_price := some yp, no_price := some np,
            spread := m.spread,
            volume := jsonGetD m.volumeNum 0,
            volume_24hr := jsonGetD m.volume24hr 0,
            liquidity := jsonGetD m.liquidityNum 0,
            end_date := m.endDate,
            url := "https://polymarket.com/event/" ++ es ++ "/" ++ m.slug,
            has_rewards := false } := by
  obtain ⟨y, n⟩ := yn
  cases y with
  | none => simp [keepMarket] at h
  | some yp =>
    cases n with
    | none => simp [keepMarket] at h
    | some np =>
      simp only [keepMarket] at h
      split at h
      · exact absurd h (by simp)
      · rename_i hcond
        rw [Option.some_inj] at h
        exact ⟨yp, np, rfl, hcond, h.symm⟩

theorem processMarket_ok_some (et es ei : String) (m : RawMarket) (r : Record)
    (h : processMarket et es ei m = Except.ok (some r)) :
    ∃ yn, extractPrices m.outcomes m.prices = Except.ok yn ∧
      keepMarket et es ei m yn = some r := by
  unfold processMarket at h
  cases hep : extractPrices m.outcomes m.prices with
  | error e => rw [hep] at h; simp [Except.map] at h
  | ok yn =>
    rw [hep] at h
    simp only [Except.map, Except.ok.injEq] at h
    exact ⟨yn, rfl, h⟩

theorem processMarket_volume_bound (et es ei : String) (m : RawMarket) (r : Record)
    (h : processMarket et es ei m = Except.ok (some r)) :
    r.volume ≠ none ∧ r.liquidity ≠ none ∧
    10 ≤ orZero r.volume ∧ 10 ≤ orZero r.liquidity := by
  obtain ⟨yn, hep, hk⟩ := processMarket_ok_some et es ei m r h
  obtain ⟨yp, np, hyn, hcond, hr⟩ := keepMarket_eq_some et es ei m yn r hk
  push_neg at hcond
  obtain ⟨hv, hl⟩ := hcond
  subst hr
  refine ⟨?_, ?_, hv, hl⟩
  · intro hnone
    simp only at hnone
    rw [hnone] at hv
    norm_num [orZero] at hv
  · intro hnone
    simp only at hnone
    rw [hnone] at hl
    norm_num [orZero] at hl

theorem processMarket_price_bound (et es ei : String) (m : RawMarket) (r : Record)
    (hp : ∀ p ∈ m.prices, 0 ≤ p ∧ p ≤ 1)
    (h : processMarket et es ei m = Except.ok (some r)) :
    r.yes_price ≠ none ∧ r.no_price ≠ none ∧
    0 ≤ orZero r.yes_price ∧ orZero r.yes_price ≤ 100 ∧
    0 ≤ orZero r.no_price ∧ orZero r.no_price ≤ 100 := by
  obtain ⟨yn, hep, hk⟩ := processMarket_ok_some et es ei m r h
  obtain ⟨yp, np, hyn, hcond, hr⟩ := keepMarket_eq_some et es ei m yn r hk
  have hok := extractPrices_priceOk m.outcomes m.prices yn hep
  subst hyn
  obtain ⟨hy, hn⟩ := hok
  obtain ⟨p1, hp1, hyp⟩ := hy yp rfl
  obtain ⟨p2, hp2, hnp⟩ := hn np rfl
  obtain ⟨h10, h11⟩ := hp p1 hp1
  obtain ⟨h20, h21⟩ := hp p2 hp2
  have b1 := round2_bounds p1 h10 h11
  have b2 := round2_bounds p2 h20 h21
  subst hr
  subst hyp
  subst hnp
  exact ⟨by simp, by simp, by simpa [orZero] using b1.1, by simpa [orZero] using b1.2,
    by simpa [orZero] using b2.1, by simpa [orZero] using b2.2⟩

theorem mem_marketsOfEvents {m : RawMarket} {e : EventData} :
    ∀ {evs : List EventData}, e ∈ evs → m ∈ e.markets → m ∈ marketsOfEvents evs
  | [], he, _ => absurd he (List.not_mem_nil e)
  | x :: xs, he, hm => by
    rw [marketsOfEvents]
    rcases List.mem_cons.mp he with rfl | hx
    · exact List.mem_append.mpr (Or.inl hm)
    · exact List.mem_append.mpr (Or.inr (mem_marketsOfEvents hx hm))

theorem processMarkets_sound (P : Record → Prop) (et es ei : String) :
    ∀ (ms : List RawMarket) (acc : List Record),
      (∀ a ∈ acc, P a) →
      (∀ m ∈ ms, ∀ r, processMarket et es ei m = Except.ok (some r) → P r) →
      ∀ r ∈ exVal (processMarkets et es ei acc ms), P r := by
  intro ms
  induction ms with
  | nil =>
    intro acc hacc _ r hr
    exact hacc r hr
  | cons m rest ih =>
    intro acc hacc hP r hr
    simp only [processMarkets] at hr
    cases hpm : processMarket et es ei m with
    | error e =>
      simp only [hpm, exVal] at hr
      exact hacc r hr
    | ok o =>
      cases o with
      | none =>
        simp only [hpm] at hr
        exact ih acc hacc (fun m1 hm1 => hP m1 (List.mem_cons_of_mem m hm1)) r hr
      | some r0 =>
        simp only [hpm] at hr
        refine ih (acc ++ [r0]) ?_ (fun m1 hm1 => hP m1 (List.mem_cons_of_mem m hm1)) r hr
        intro a ha
        rcases List.mem_append.mp ha with ha | ha
        · exact hacc a ha
        · rw [List.mem_singleton] at ha
          rw [ha]
          exact hP m (List.mem_cons_self m rest) r0 hpm

theorem processEvents_sound (P : Record → Prop) :
    ∀ (evs : List EventData) (acc : List Record),
      (∀ a ∈ acc, P a) →
      (∀ e ∈ evs, ∀ m ∈ e.markets, ∀ r,
        processMarket e.title e.slug e.image m = Except.ok (some r) → P r) →
      ∀ r ∈ exVal (processEvents acc evs), P r := by
  intro evs
  induction evs with
  | nil =>
    intro acc hacc _ r hr
    exact hacc r hr
  | cons e rest ih =>
    intro acc hacc hP r hr
    simp only [processEvents] at hr
    have hs := processMarkets_sound P e.title e.slug e.image e.markets acc hacc
      (fun m hm => hP e (List.mem_cons_self e rest) m hm)
    cases hpe : processMarkets e.title e.slug e.image acc e.markets with
    | error acc1 =>
      simp only [hpe] at hr
      rw [hpe] at hs
      exact hs r hr
    | ok acc1 =>
      simp only [hpe] at hr
      rw [hpe] at hs
      exact ih acc1 (fun a ha => hs a ha)
        (fun e1 he1 => hP e1 (List.mem_cons_of_mem e he1)) r hr

theorem fetchLoop_sound (P : Record → Prop) (limit : Nat) :
    ∀ (pages : List (Except Unit (List EventData))) (acc : List Record),
      (∀ a ∈ acc, P a) →
      (∀ m ∈ marketsOfPages pages, ∀ (et es ei : String) (r : Record),
        processMarket et es ei m = Except.ok (some r) → P r) →
      ∀ r ∈ fetchLoop limit acc pages, P r := by
  intro pages
  induction pages with
  | nil =>
    intro acc hacc _ r hr
    exact hacc r hr
  | cons page rest ih =>
    intro acc hacc hP r hr
    cases page with
    | error e =>
      simp only [fetchLoop] at hr
      exact hacc r hr
    | ok events =>
      simp only [fetchLoop] at hr
      by_cases hemp : events.isEmpty = true
      · rw [if_pos hemp] at hr
        exact hacc r hr
      · rw [if_neg hemp] at hr
        have hPev : ∀ e ∈ events, ∀ m ∈ e.markets, ∀ (r1 : Record),
            processMarket e.title e.slug e.image m = Except.ok (some r1) → P r1 := by
          intro e he m hm r1 h1
          refine hP m ?_ e.title e.slug e.image r1 h1
          rw [marketsOfPages]
          exact List.mem_append.mpr (Or.inl (mem_marketsOfEvents he hm))
        have hs := processEvents_sound P events acc hacc hPev
        cases hpe : processEvents acc events with
        | error acc1 =>
          simp only [hpe] at hr
          rw [hpe] at hs
          exact hs r hr
        | ok acc1 =>
          simp only [hpe] at hr
          rw [hpe] at hs
          by_cases hshort : events.length < limit
          · rw [if_pos hshort] at hr
            exact hs r hr
          · rw [if_neg hshort] at hr
            refine ih acc1 (fun a ha => hs a ha) ?_ r hr
            intro m1 hm1
            refine hP m1 ?_
            rw [marketsOfPages]
            exact List.mem_append.mpr (Or.inr hm1)

theorem fetchAllMarkets_sound (P : Record → Prop)
    (pages : List (Except Unit (List EventData)))
    (hP : ∀ m ∈ marketsOfPages pages, ∀ (et es ei : String) (r : Record),
      processMarket et es ei m = Except.ok (some r) → P r) :
    ∀ r ∈ fetchAllMarkets pages, P r :=
  fetchLoop_sound P 100 pages [] (fun a ha => absurd ha (List.not_mem_nil a)) hP

theorem runCycle_markets_sound (P : Record → Prop)
    (hflag : ∀ (slugs : List String) (r : Record), P r → P (flagRecord slugs r))
    (stored : List String) (pages : List (Except Unit (List EventData)))
    (scrapePages : List (Except Unit (List String)))
    (hP : ∀ m ∈ marketsOfPages pages, ∀ (et es ei : String) (r : Record),
      processMarket et es ei m = Except.ok (some r) → P r) :
    ∀ r ∈ (runCycle stored pages scrapePages).markets, P r := by
  intro r hr
  simp only [runCycle, combineData] at hr
  rw [List.mem_map] at hr
  obtain ⟨r0, hr0, heq⟩ := hr
  rw [← heq]
  exact hflag _ r0 (fetchAllMarkets_sound P pages hP r0 hr0)

/-- Evaluation of the concrete good cycle: one page with one well-formed
market, a scrape that finds its slug. -/
theorem goodCycleMarkets :
    (runCycle [] [Except.ok [evGood]] [Except.ok ["g"]]).markets = [rGoodStar] := by
  norm_num +decide [runCycle, combineData, fetchAllMarkets, fetchLoop, processEvents,
    processMarkets, processMarket, extractPrices, extractLoop, keepMarket,
    scrapeSlugs, scrapeLoop, addSlugs, slugSetEq, jsonGetD, orZero, imageOr,
    flagRecord, round2, round_eq, Except.map, mGood, evGood, rGood, rGoodStar]

/-! ## Claim C5 -/

/-- Claim C5 counterexample: the code performs no range check on prices.  Fed
a page whose market carries the upstream outcome price 1.5 (a value the Gamma
API schema would not produce but which the code accepts unchecked), the
completed cycle's snapshot contains a record whose yes_price is 150, outside
[0,100], falsifying the invariant as stated. -/
theorem C5_counterexample :
    (runCycle [] [Except.ok [evBad]] [Except.ok []]).markets = [rBadOut] ∧
    rBadOut.yes_price = some 150 ∧ (100 : ℚ) < 150 := by
  refine ⟨?_, rfl, by norm_num⟩
  norm_num +decide [runCycle, combineData, fetchAllMarkets, fetchLoop, processEvents,
    processMarkets, processMarket, extractPrices, extractLoop, keepMarket,
    scrapeSlugs, scrapeLoop, addSlugs, slugSetEq, jsonGetD, orZero, imageOr,
    flagRecord, round2, round_eq, Except.map, mBad, evBad, rBadOut]

/-- Claim C5, amended: in any snapshot produced by a completed cycle every
record has BOTH price fields present — a market whose extraction leaves
either price absent is excluded before combination (placeholder filtering) —
and, PROVIDED every upstream outcome price lies in [0,1] (a range the code
itself never checks), both values lie in [0,100]. -/
theorem C5_amended_thm (stored : List String)
    (pages : List (Except Unit (List EventData)))
    (scrapePages : List (Except Unit (List String)))
    (hp : ∀ m ∈ marketsOfPages pages, ∀ p ∈ m.prices, 0 ≤ p ∧ p ≤ 1) :
    (∀ r ∈ (runCycle stored pages scrapePages).markets,
      r.yes_price ≠ none ∧ r.no_price ≠ none ∧
      0 ≤ orZero r.yes_price ∧ orZero r.yes_price ≤ 100 ∧
      0 ≤ orZero r.no_price ∧ orZero r.no_price ≤ 100) ∧
    (∀ (et es ei : String) (m : RawMarket) (y n : Option ℚ),
      extractPrices m.outcomes m.prices = Except.ok (y, n) →
      y = none ∨ n = none →
      processMarket et es ei m = Except.ok none) := by
  constructor
  · apply runCycle_markets_sound
    · intro slugs r hr
      exact hr
    · intro m hm et es ei r h
      exact processMarket_price_bound et es ei m r (hp m hm) h
  · intro et es ei m y n hep hyn
    unfold processMarket
    rw [hep]
    simp only [Except.map]
    rcases hyn with rfl | rfl
    · cases n <;> simp [keepMarket]
    · cases y <;> simp [keepMarket]

/-- Claim C5 witness: the amended invariant evaluated on a concrete completed
cycle whose snapshot is [rGoodStar]. -/
theorem C5_witness :
    rGoodStar.yes_price ≠ none ∧ rGoodStar.no_price ≠ none ∧
    0 ≤ orZero rGoodStar.yes_price ∧ orZero rGoodStar.yes_price ≤ 100 ∧
    0 ≤ orZero rGoodStar.no_price ∧ orZero rGoodStar.no_price ≤ 100 :=
  (C5_amended_thm [] [Except.ok [evGood]] [Except.ok ["g"]]
      (by norm_num [marketsOfPages, marketsOfEvents, evGood, mGood])).1
    rGoodStar (by rw [goodCycleMarkets]; exact List.mem_singleton.mpr rfl)

/-! ## Claim C8 -/

/-- Claim C8: adapter failure does not fail the cycle.  For EVERY adapter
environment — in particular ones whose pages raise (Except.error) — the
sequential cycle still reaches combination with whatever partial results the
adapters accumulated and completes with Progress State "ready"; a page that
raises makes the listing fetch (and likewise the scrape) return exactly the
records accumulated so far instead of propagating the exception, so nothing
ever escapes toward the HTTP boundary. -/
theorem C8_thm (stored : List String) (pages : List (Except Unit (List EventData)))
    (scrapePages : List (Except Unit (List String))) :
    (runCycle stored pages scrapePages).progressStatus = "ready" ∧
    (runCycle stored pages scrapePages).markets =
      (combineData (fetchAllMarkets pages) (scrapeSlugs scrapePages) stored).1 ∧
    (∀ (acc : List Record) (rest : List (Except Unit (List EventData))),
      fetchLoop 100 acc (Except.error () :: rest) = acc) ∧
    (∀ (fp : Option (List String)) (acc : List String) (pn mp : Nat)
      (rest : List (Except Unit (List String))),
      scrapeLoop fp acc pn mp (Except.error () :: rest) = acc) := by
  refine ⟨rfl, rfl, fun acc rest => rfl, fun fp acc pn mp rest => ?_⟩
  rw [scrapeLoop]
  split
  · rfl
  · rfl

/-! ## Claim C10 -/

/-- Claim C10: every record in any snapshot produced by a completed cycle has
its volume and liquidity metrics present and at least 10; a raw market whose
effective volume or liquidity — with a missing or null metric treated as 0 —
is below 10 is never kept by the listing adapter. -/
theorem C10_thm (stored : List String) (pages : List (Except Unit (List EventData)))
    (scrapePages : List (Except Unit (List String))) :
    (∀ r ∈ (runCycle stored pages scrapePages).markets,
      r.volume ≠ none ∧ r.liquidity ≠ none ∧
      10 ≤ orZero r.volume ∧ 10 ≤ orZero r.liquidity) ∧
    (∀ (et es ei : String) (m : RawMarket) (r : Record),
      orZero (jsonGetD m.volumeNum 0) < 10 ∨ orZero (jsonGetD m.liquidityNum 0) < 10 →
      processMarket et es ei m ≠ Except.ok (some r)) := by
  constructor
  · apply runCycle_markets_sound
    · intro slugs r hr
      exact hr
    · intro m hm et es ei r h
      exact processMarket_volume_bound et es ei m r h
  · intro et es ei m r hlow h
    obtain ⟨yn, hep, hk⟩ := processMarket_ok_some et es ei m r h
    obtain ⟨yp, np, hyn, hcond, hr⟩ := keepMarket_eq_some et es ei m yn r hk
    exact hcond hlow

/-- Claim C10 witness: the bounds evaluated on a concrete completed cycle
whose snapshot is [rGoodStar], and the drop of a low-volume market. -/
theorem C10_witness :
    (rGoodStar.volume ≠ none ∧ rGoodStar.liquidity ≠ none ∧
      10 ≤ orZero rGoodStar.volume ∧ 10 ≤ orZero rGoodStar.liquidity) ∧
    processMarket "E" "e" "" mLowVol ≠ Except.ok (some rGood) :=
  ⟨(C10_thm [] [Except.ok [evGood]] [Except.ok ["g"]]).1 rGoodStar
     (by rw [goodCycleMarkets]; exact List.mem_singleton.mpr rfl),
   (C10_thm [] [Except.ok [evGood]] [Except.ok ["g"]]).2 "E" "e" "" mLowVol rGood
     (by norm_num [mLowVol, jsonGetD, orZero])⟩
